import Mathlib

/-!
Shallow embedding of the go-msgpack RPC codec (`rpc.go`) and proofs about it.

The serialization engine (Encoder/Decoder) is out of scope of the repository
slice under verification: the spec treats it as a black box bound to the
stream.  We therefore model the wire as a list of tokens: a `Tok.raw b` token
is a single raw byte that the codec reads manually (the fixarray descriptor
byte that `parseCustomHeader` reads while bypassing the decoder), and a
`Tok.val v` token is one complete encoded value, consumed whole by one
`Decode` call.  Encoding a top-level array materialises its one-byte fixarray
descriptor as a raw token followed by the element values, matching the msgpack
byte layout far enough for the manual one-byte read in `parseCustomHeader` to
be visible.
-/

namespace Msgpack

/-- A wire-level msgpack value, as far as the RPC codec distinguishes them:
nil, small unsigned ints (the discriminator byte), 32-bit unsigned ints (the
sequence number put on the wire), strings (method name / error text), arrays
(the envelope and the request body wrapper), and the black-box encodings of
the `net/rpc` Request and Response envelope structs used by the basic
protocol. -/
inductive Val where
  | nil
  | byte (b : Nat)
  | u32 (n : Nat)
  | str (s : String)
  | arr (elems : List Val)
  | reqV (seq : Nat) (meth : String)
  | respV (seq : Nat) (err : String)

/-- A Go `interface{}` argument: `none` is the nil interface (encoded as
msgpack nil), `some v` a non-nil value encoding to `v`. -/
def encOpt : Option Val → Val
  | none => Val.nil
  | some v => v

/-- First byte of a value's msgpack encoding (per the msgpack format; the
encoder itself is outside the repository slice).  Only used to make the raw
one-byte read total when the stream is mispositioned at a value token; no
claim depends on the exact numbers. -/
def firstByte : Val → Nat
  | Val.nil => 0xc0
  | Val.byte b => if b < 128 then b else 0xcc
  | Val.u32 n => if n < 128 then n else if n < 256 then 0xcc else if n < 65536 then 0xcd else 0xce
  | Val.str s => if s.length < 32 then 0xa0 + s.length else 0xda
  | Val.arr vs => if vs.length < 16 then 0x90 + vs.length else 0xdc
  | Val.reqV _ _ => 0x82
  | Val.respV _ _ => 0x83

/-- One token of the wire stream. `raw` is a single byte readable directly
from the transport; `val` is one complete encoded value; `short` makes
`rwc.Read` return 0 bytes with no error; `ioerr` makes the transport fail. -/
inductive Tok where
  | raw (b : Nat)
  | val (v : Val)
  | short
  | ioerr

/-- Result of `c.rwc.Read(bs)` with a 1-byte buffer: transport error,
a 0-byte read without error, or one byte plus the rest of the stream. -/
inductive ByteRead where
  | rerr (rest : List Tok)
  | rshort (rest : List Tok)
  | rok (b : Nat) (rest : List Tok)

/-- Read one raw byte directly from the stream, bypassing the decoder
(`c.rwc.Read(bs)` in `parseCustomHeader`).  At end of stream the transport
reports EOF (an error); at a value token the byte obtained is the first byte
of that value's encoding. -/
def readByte : List Tok → ByteRead
  | [] => ByteRead.rerr []
  | Tok.ioerr :: rest => ByteRead.rerr rest
  | Tok.short :: rest => ByteRead.rshort rest
  | Tok.raw b :: rest => ByteRead.rok b rest
  | Tok.val v :: rest => ByteRead.rok (firstByte v) rest

/-- Encoding of one value as emitted by one `enc.Encode` call.  A top-level
array of at most 15 elements starts with its one-byte fixarray descriptor,
exposed as a raw token (this is the byte `parseCustomHeader` reads manually);
every other value is a single opaque value token. -/
def encTop : Val → List Tok
  | Val.arr vs =>
      if vs.length ≤ 15 then Tok.raw (0x90 + vs.length) :: vs.map Tok.val
      else [Tok.val (Val.arr vs)]
  | v => [Tok.val v]

mutual

/-- Fuel-indexed model of `dec.Decode` reading one complete value: a value
token is consumed whole; a raw fixarray descriptor byte is followed by its
element values. Any other stream head is a decode error (`none`). -/
def decodeValF : Nat → List Tok → Option (Val × List Tok)
  | 0, _ => none
  | _ + 1, [] => none
  | _ + 1, Tok.ioerr :: _ => none
  | _ + 1, Tok.short :: _ => none
  | _ + 1, Tok.val v :: rest => some (v, rest)
  | f + 1, Tok.raw b :: rest =>
      if 0x90 ≤ b ∧ b ≤ 0x9f then
        match decodeListF f (b - 0x90) rest with
        | none => none
        | some (vs, r) => some (Val.arr vs, r)
      else none

/-- Decode `n` consecutive values (the elements of an array whose descriptor
byte was just consumed). -/
def decodeListF : Nat → Nat → List Tok → Option (List Val × List Tok)
  | 0, _, _ => none
  | _ + 1, 0, s => some ([], s)
  | f + 1, n + 1, s =>
      match decodeValF f s with
      | none => none
      | some (v, r) =>
        match decodeListF f n r with
        | none => none
        | some (vs, r2) => some (v :: vs, r2)

end

/-- `dec.Decode` of one value; the fuel bound suffices for any stream. -/
def decodeVal (s : List Tok) : Option (Val × List Tok) :=
  decodeValF (2 * s.length + 2) s

/-- Assigning a decoded value into a `byte` target (Go errors when the value
is not an unsigned integer fitting in 8 bits). -/
def asByteT : Val → Option Nat
  | Val.byte b => if b < 256 then some b else none
  | Val.u32 n => if n < 256 then some n else none
  | _ => none

/-- Assigning a decoded value into a `uint64` target: any unsigned integer
value widens losslessly into the 64-bit field. -/
def asU64T : Val → Option Nat
  | Val.byte b => some b
  | Val.u32 n => some n
  | _ => none

/-- Assigning a decoded value into a `string` target; msgpack nil decodes to
the zero value, the empty string. -/
def asStrT : Val → Option String
  | Val.str s => some s
  | Val.nil => some ("")
  | _ => none

/-- `net/rpc` Request fields used by the codec: `Seq uint64` (kept below
2^64 by the callers; truncation to 32 bits is explicit where it happens) and
`ServiceMethod string`. -/
structure Request where
  Seq : Nat
  ServiceMethod : String
deriving DecidableEq, Repr

/-- `net/rpc` Response fields used by the codec: `Seq uint64` and
`Error string` (empty means no error). -/
structure Response where
  Seq : Nat
  Error : String
deriving DecidableEq, Repr

/-- Assigning a decoded value into a `*rpc.Request` target. -/
def asReqT : Val → Option Request
  | Val.reqV q m => some ⟨q, m⟩
  | _ => none

/-- Assigning a decoded value into a `*rpc.Response` target. -/
def asRespT : Val → Option Response
  | Val.respV q e => some ⟨q, e⟩
  | _ => none

/-- The single value passed to `enc.Encode` by `specRpcCodec.writeCustomBody`:

    var moe interface\x7b\x7d = methodOrError
    if typeByte == 1 \x7b
        if methodOrError == "" \x7b moe = nil \x7d
        if moe != nil && body != nil \x7b body = nil \x7d
    \x7d
    r2 := []interface\x7b\x7d\x7b typeByte, uint32(msgid), moe, body \x7d

`uint32(msgid)` is the Go conversion, i.e. reduction mod 2^32. -/
def writeCustomBodyVal (typeByte : Nat) (msgid : Nat) (methodOrError : String)
    (body : Option Val) : Val :=
  let moe : Option Val := some (Val.str methodOrError)
  let moe := if typeByte = 1 ∧ methodOrError = "" then none else moe
  let body := if typeByte = 1 ∧ moe.isSome ∧ body.isSome then none else body
  Val.arr [Val.byte typeByte, Val.u32 (msgid % 2 ^ 32), encOpt moe, encOpt body]

/-- `specRpcCodec.writeCustomBody`: one `enc.Encode` call appends the encoding
of the single 4-element envelope array to the stream. -/
def writeCustomBody (typeByte : Nat) (msgid : Nat) (methodOrError : String)
    (body : Option Val) (s : List Tok) : List Tok :=
  s ++ encTop (writeCustomBodyVal typeByte msgid methodOrError body)

/-- `specRpcCodec.WriteRequest`: `writeCustomBody(0, r.Seq, r.ServiceMethod,
[]interface\x7b\x7d\x7bbody\x7d)` — the body is wrapped in a 1-element array
(a non-nil slice value, even when `body` itself is the nil interface). -/
def specWriteRequest (r : Request) (body : Option Val) (s : List Tok) : List Tok :=
  writeCustomBody 0 r.Seq r.ServiceMethod (some (Val.arr [encOpt body])) s

/-- `specRpcCodec.WriteResponse`: `writeCustomBody(1, r.Seq, r.Error, body)`
with the body passed through unwrapped. -/
def specWriteResponse (r : Response) (body : Option Val) (s : List Tok) : List Tok :=
  writeCustomBody 1 r.Seq r.Error body s

/-- The errors `parseCustomHeader` can return: a transport error from the
raw read, the "no bytes read" error, the "unexpected array descriptor" error
(carrying the byte received), a decoder failure from `c.read`, and the
"unexpected byte descriptor" discriminator-mismatch error (carrying the
expected and received discriminators). -/
inductive HErr where
  | ioErr
  | shortErr
  | markerErr (b : Nat)
  | decodeErr
  | discErr (expected got : Nat)

/-- Outcome of `parseCustomHeader`: the returned error (none on success), the
final contents of the caller's `*msgid` and `*methodOrError` fields (the
function mutates them through pointers, so they carry values even on some
error paths), and the unread remainder of the stream. -/
structure HRes where
  err : Option HErr
  msgid : Nat
  moe : String
  rest : List Tok

/-- `specRpcCodec.parseCustomHeader(expectTypeByte, msgid, methodOrError)`:
read one raw byte bypassing the decoder and require the fixarray-of-4
descriptor 0x94; then `c.read(&b, msgid, methodOrError)` decodes three
consecutive values (discriminator byte, sequence number, string) into their
targets in order, stopping at the first decoder failure; finally compare the
decoded discriminator with the expected one.  `msgid0`/`moe0` are the values
held by the caller's fields before the call. -/
def parseCustomHeader (expectTypeByte : Nat) (msgid0 : Nat) (moe0 : String)
    (s : List Tok) : HRes :=
  match readByte s with
  | ByteRead.rerr r => ⟨some HErr.ioErr, msgid0, moe0, r⟩
  | ByteRead.rshort r => ⟨some HErr.shortErr, msgid0, moe0, r⟩
  | ByteRead.rok b0 r =>
    if b0 ≠ 0x94 then ⟨some (HErr.markerErr b0), msgid0, moe0, r⟩
    else
      match decodeVal r with
      | none => ⟨some HErr.decodeErr, msgid0, moe0, r⟩
      | some (v1, r1) =>
        match asByteT v1 with
        | none => ⟨some HErr.decodeErr, msgid0, moe0, r1⟩
        | some disc =>
          match decodeVal r1 with
          | none => ⟨some HErr.decodeErr, msgid0, moe0, r1⟩
          | some (v2, r2) =>
            match asU64T v2 with
            | none => ⟨some HErr.decodeErr, msgid0, moe0, r2⟩
            | some mid =>
              match decodeVal r2 with
              | none => ⟨some HErr.decodeErr, mid, moe0, r2⟩
              | some (v3, r3) =>
                match asStrT v3 with
                | none => ⟨some HErr.decodeErr, mid, moe0, r3⟩
                | some ms =>
                  if disc ≠ expectTypeByte then
                    ⟨some (HErr.discErr expectTypeByte disc), mid, ms, r3⟩
                  else ⟨none, mid, ms, r3⟩

/-- `specRpcCodec.ReadRequestHeader(r)`: `parseCustomHeader(0, &r.Seq,
&r.ServiceMethod)`.  Returns the error, the Request as left by the call, and
the remaining stream. -/
def specReadRequestHeader (r : Request) (s : List Tok) :
    Option HErr × Request × List Tok :=
  let h := parseCustomHeader 0 r.Seq r.ServiceMethod s
  (h.err, ⟨h.msgid, h.moe⟩, h.rest)

/-- `specRpcCodec.ReadResponseHeader(r)`: `parseCustomHeader(1, &r.Seq,
&r.Error)`. -/
def specReadResponseHeader (r : Response) (s : List Tok) :
    Option HErr × Response × List Tok :=
  let h := parseCustomHeader 1 r.Seq r.Error s
  (h.err, ⟨h.msgid, h.moe⟩, h.rest)

/-- `specRpcCodec.ReadRequestBody(body)`: decode the next value into
`[]interface\x7b\x7d\x7bbody\x7d`, a slice of length 1 whose single slot is
the caller's target — i.e. the wire value must be a 1-element array and its
element lands in the target.  Returns the decoded body and the remaining
stream, or none on a decoder failure. -/
def specReadRequestBody (s : List Tok) : Option (Val × List Tok) :=
  match decodeVal s with
  | some (Val.arr [v], rest) => some (v, rest)
  | _ => none

/-- `rpcCodec.ReadResponseBody(body)` (shared by both protocols): one
`dec.Decode` straight into the target. -/
def rpcReadResponseBody (s : List Tok) : Option (Val × List Tok) :=
  decodeVal s

/-- `rpcCodec.write(objs...)` over an abstract encoder: encode each value in
order, returning at the first failure.  The encoder is a step function from a
value and an encoder/stream state to an optional error and the next state,
so the state records exactly which values were given to `enc.Encode`. -/
def rpcWrite {σ ε : Type} (step : Val → σ → Option ε × σ) :
    List Val → σ → Option ε × σ
  | [], s => (none, s)
  | v :: vs, s =>
    match step v s with
    | (some e, s1) => (some e, s1)
    | (none, s1) => rpcWrite step vs s1

/-- The target slots `rpcCodec.read(objs...)` can decode into. -/
inductive Tgt where
  | byteT
  | u64T
  | strT

/-- `rpcCodec.read(objs...)` over an abstract decoder: decode into each
target in order, returning at the first failure. -/
def rpcRead {σ ε : Type} (step : Tgt → σ → Option ε × σ) :
    List Tgt → σ → Option ε × σ
  | [], s => (none, s)
  | t :: ts, s =>
    match step t s with
    | (some e, s1) => (some e, s1)
    | (none, s1) => rpcRead step ts s1

/-- The concrete encoder step on the token-stream model: `enc.Encode`
appends the value's encoding; in this model encoding itself always
succeeds (encoder failures are covered by the abstract-step theorems). -/
def encStep (v : Val) (s : List Tok) : Option Empty × List Tok :=
  (none, s ++ encTop v)

/-- `goRpcCodec.WriteRequest(r, body)`: `c.write(r, body)` — the envelope
struct then the body, two consecutive encoded values. -/
def goWriteRequest (r : Request) (body : Val) (s : List Tok) : List Tok :=
  (rpcWrite encStep [Val.reqV r.Seq r.ServiceMethod, body] s).2

/-- `goRpcCodec.WriteResponse(r, body)`: `c.write(r, body)`. -/
def goWriteResponse (r : Response) (body : Val) (s : List Tok) : List Tok :=
  (rpcWrite encStep [Val.respV r.Seq r.Error, body] s).2

/-- `goRpcCodec.ReadRequestHeader(r)`: one `dec.Decode(r)` into the Request;
on failure the Request is left as it was. -/
def goReadRequestHeader (r : Request) (s : List Tok) :
    Option HErr × Request × List Tok :=
  match decodeVal s with
  | none => (some HErr.decodeErr, r, s)
  | some (v, rest) =>
    match asReqT v with
    | none => (some HErr.decodeErr, r, rest)
    | some r1 => (none, r1, rest)

/-- `goRpcCodec.ReadResponseHeader(r)`: one `dec.Decode(r)` into the
Response. -/
def goReadResponseHeader (r : Response) (s : List Tok) :
    Option HErr × Response × List Tok :=
  match decodeVal s with
  | none => (some HErr.decodeErr, r, s)
  | some (v, rest) =>
    match asRespT v with
    | none => (some HErr.decodeErr, r, rest)
    | some r1 => (none, r1, rest)

/-- `goRpcCodec.ReadRequestBody(body)`: one `dec.Decode(body)`. -/
def goReadRequestBody (s : List Tok) : Option (Val × List Tok) :=
  decodeVal s

/-- The stream starts badly for `parseCustomHeader`: the manual one-byte read
fails, reads zero bytes, or yields a byte other than the 0x94 fixarray-of-4
descriptor. -/
def badStartB (s : List Tok) : Bool :=
  match readByte s with
  | ByteRead.rok b _ => decide (b ≠ 0x94)
  | _ => true

/-- Observation function for the response-envelope invariant: the error slot
and the body slot of the 4-element array `writeCustomBody` encodes for a
response. -/
def respSlots (r : Response) (b : Option Val) : Val × Val :=
  match writeCustomBodyVal 1 r.Seq r.Error b with
  | Val.arr [_, _, moe, body] => (moe, body)
  | _ => (Val.nil, Val.nil)

/-- Encoder step instrumented to record every value handed to `enc.Encode`:
the state is the list of values attempted so far, and `fails` says which
values the encoder rejects (and with which error). -/
def traceEncStep {ε : Type} (fails : Val → Option ε) (v : Val) (t : List Val) :
    Option ε × List Val :=
  (fails v, t ++ [v])

/-- Decoder step instrumented to record every target handed to
`dec.Decode`. -/
def traceDecStep {ε : Type} (fails : Tgt → Option ε) (tg : Tgt) (t : List Tgt) :
    Option ε × List Tgt :=
  (fails tg, t ++ [tg])

/-- A concrete failure pattern for the encoder: encoding nil fails with
error 0. -/
def failsW0 : Val → Option Nat
  | Val.nil => some 0
  | _ => none

/-- A concrete failure pattern for the decoder: decoding into a string target
fails with error 1. -/
def failsR0 : Tgt → Option Nat
  | Tgt.strT => some 1
  | _ => none

/-- Observation function: the sequence-number slot (second element) of an
encoded 4-element envelope. -/
def seqSlot : Val → Option Val
  | Val.arr [_, sq, _, _] => some sq
  | _ => none

theorem decodeValF_val (f : Nat) (v : Val) (rest : List Tok) (hf : f ≠ 0) :
    decodeValF f (Tok.val v :: rest) = some (v, rest) := by
  cases f with
  | zero => exact absurd rfl hf
  | succ g => rfl

@[simp] theorem decodeVal_val (v : Val) (rest : List Tok) :
    decodeVal (Tok.val v :: rest) = some (v, rest) :=
  decodeValF_val _ v rest (by simp [Nat.add_eq_zero])

/-- C1: `writeResponse` on the Spec protocol normalizes an empty
`ErrorMessage` to the explicit nil marker, forces the body to nil whenever
the normalized error is present and the body non-null, and encodes a single
4-element array with the body slot unwrapped. -/
theorem writeResponse_normalized_envelope (r : Response) (b : Option Val) (s : List Tok) :
    writeCustomBodyVal 1 r.Seq r.Error b =
      Val.arr [Val.byte 1, Val.u32 (r.Seq % 2 ^ 32),
        (if r.Error = "" then Val.nil else Val.str r.Error),
        (if r.Error ≠ "" ∧ b.isSome then Val.nil else encOpt b)] ∧
    specWriteResponse r b s =
      s ++ [Tok.raw 0x94, Tok.val (Val.byte 1), Tok.val (Val.u32 (r.Seq % 2 ^ 32)),
        Tok.val (if r.Error = "" then Val.nil else Val.str r.Error),
        Tok.val (if r.Error ≠ "" ∧ b.isSome then Val.nil else encOpt b)] := by
  by_cases hE : r.Error = "" <;> cases b <;>
    simp [writeCustomBodyVal, specWriteResponse, writeCustomBody, encTop, encOpt, hE]

/-- C4: `writeRequest` on the Spec protocol encodes exactly one value, the
4-element array whose fourth slot is a 1-element array wrapping the body;
a response (here one with no error, so nothing is forced to nil) carries its
body slot unwrapped. -/
theorem writeRequest_wraps_body (r : Request) (b : Option Val) (s : List Tok) (q : Nat) :
    specWriteRequest r b s =
      s ++ [Tok.raw 0x94, Tok.val (Val.byte 0), Tok.val (Val.u32 (r.Seq % 2 ^ 32)),
        Tok.val (Val.str r.ServiceMethod), Tok.val (Val.arr [encOpt b])] ∧
    specWriteResponse ⟨q, ""⟩ b s =
      s ++ [Tok.raw 0x94, Tok.val (Val.byte 1), Tok.val (Val.u32 (q % 2 ^ 32)),
        Tok.val Val.nil, Tok.val (encOpt b)] := by
  cases b <;>
    simp [specWriteRequest, specWriteResponse, writeCustomBody, writeCustomBodyVal,
      encTop, encOpt]

/-- C8 counterexample: a response with an empty `ErrorMessage` and a nil body
is encoded with the nil marker in BOTH the error slot and the body slot, so
the envelope can carry neither an error nor a body, contrary to the claim's
"never neither". -/
theorem respSlots_neither_cex :
    ¬ ((respSlots ⟨5, ""⟩ none).1 ≠ Val.nil ∨ (respSlots ⟨5, ""⟩ none).2 ≠ Val.nil) := by
  intro h
  rcases h with h | h <;> exact h rfl

/-- C8 amended: every response envelope written by the Spec protocol has at
least one of the error slot and the body slot absent (nil) — error and body
are never both present; but both may be absent, when the error is empty and
the body passed is nil. -/
theorem respSlots_mutually_exclusive (r : Response) (b : Option Val) :
    (respSlots r b).1 = Val.nil ∨ (respSlots r b).2 = Val.nil := by
  by_cases hE : r.Error = "" <;> cases b <;>
    simp [respSlots, writeCustomBodyVal, encOpt, hE]

/-- C2: when the manual one-byte read at the start of a Spec-protocol header
read fails, reads no byte, or yields a byte other than the 4-element-array
descriptor 0x94, both `ReadRequestHeader` and `ReadResponseHeader` return an
error and leave the caller's fields exactly as they were. -/
theorem header_read_bad_start (s : List Tok) (req : Request) (resp : Response)
    (h : badStartB s = true) :
    (specReadRequestHeader req s).1.isSome = true ∧
    (specReadRequestHeader req s).2.1 = req ∧
    (specReadResponseHeader resp s).1.isSome = true ∧
    (specReadResponseHeader resp s).2.1 = resp := by
  unfold badStartB at h
  cases hr : readByte s with
  | rerr r =>
    simp [specReadRequestHeader, specReadResponseHeader, parseCustomHeader, hr]
  | rshort r =>
    simp [specReadRequestHeader, specReadResponseHeader, parseCustomHeader, hr]
  | rok b r =>
    rw [hr] at h
    have hb : b ≠ 0x94 := by simpa using h
    simp [specReadRequestHeader, specReadResponseHeader, parseCustomHeader, hr, hb]

/-- C2 witness: the descriptor byte 0x93 (a 3-element array) is rejected and
the caller's fields survive untouched. -/
theorem header_read_bad_start_w :
    badStartB [Tok.raw 0x93] = true ∧
    ((specReadRequestHeader ⟨1, "m"⟩ [Tok.raw 0x93]).1.isSome = true ∧
     (specReadRequestHeader ⟨1, "m"⟩ [Tok.raw 0x93]).2.1 = ⟨1, "m"⟩ ∧
     (specReadResponseHeader ⟨2, "e"⟩ [Tok.raw 0x93]).1.isSome = true ∧
     (specReadResponseHeader ⟨2, "e"⟩ [Tok.raw 0x93]).2.1 = ⟨2, "e"⟩) :=
  ⟨rfl, header_read_bad_start [Tok.raw 0x93] ⟨1, "m"⟩ ⟨2, "e"⟩ rfl⟩

/-- C3: a Spec-protocol request round-trips: writing Request r with body b and
then reading the header and the body back off the same stream yields the
method name unchanged, the sequence id truncated to its low 32 bits (then
widened back), and the body b itself. -/
theorem request_round_trip (r : Request) (b : Val) (r0 : Request) :
    specReadRequestHeader r0 (specWriteRequest r (some b) []) =
      (none, ⟨r.Seq % 2 ^ 32, r.ServiceMethod⟩, [Tok.val (Val.arr [b])]) ∧
    specReadRequestBody [Tok.val (Val.arr [b])] = some (b, []) := by
  constructor
  · simp [specWriteRequest, writeCustomBody, writeCustomBodyVal, encTop, encOpt,
      specReadRequestHeader, parseCustomHeader, readByte, asByteT, asU64T, asStrT]
  · simp [specReadRequestBody]

/-- C5: after the array descriptor is accepted, the framer decodes the
discriminator, the sequence number and the string, and then rejects a
discriminator different from the expected one; in particular a stream
carrying a response-discriminator message makes `ReadRequestHeader` fail. -/
theorem discriminator_mismatch_fails (q : Nat) (errS : String) (b : Option Val)
    (req : Request) (expect m0 : Nat) (s0 : String) (d n : Nat) (t : String)
    (rest : List Tok) (h256 : d < 256) (hd : d ≠ expect) :
    (specReadRequestHeader req (specWriteResponse ⟨q, errS⟩ b [])).1 =
      some (HErr.discErr 0 1) ∧
    (parseCustomHeader expect m0 s0 (Tok.raw 0x94 :: Tok.val (Val.byte d) ::
        Tok.val (Val.u32 n) :: Tok.val (Val.str t) :: rest)).err =
      some (HErr.discErr expect d) := by
  constructor
  · by_cases hE : errS = "" <;> cases b <;>
      simp [specWriteResponse, writeCustomBody, writeCustomBodyVal, encTop, encOpt, hE,
        specReadRequestHeader, parseCustomHeader, readByte, asByteT, asU64T, asStrT]
  · simp [parseCustomHeader, readByte, asByteT, asU64T, asStrT, h256, hd]

/-- C5 witness: discriminator 1 where 0 was expected is rejected, both for a
written response read as a request and for an explicit header stream. -/
theorem discriminator_mismatch_fails_w :
    ((1 : Nat) < 256 ∧ (1 : Nat) ≠ 0) ∧
    ((specReadRequestHeader ⟨0, ""⟩ (specWriteResponse ⟨7, "boom"⟩ none [])).1 =
       some (HErr.discErr 0 1) ∧
     (parseCustomHeader 0 0 "" [Tok.raw 0x94, Tok.val (Val.byte 1),
        Tok.val (Val.u32 9), Tok.val (Val.str "x")]).err =
       some (HErr.discErr 0 1)) :=
  ⟨by decide,
   discriminator_mismatch_fails 7 "boom" none ⟨0, ""⟩ 0 0 "" 1 9 "x" []
     (by decide) (by decide)⟩

/-- C10: on a discriminator mismatch the error is returned only after all
three header values were decoded into the caller's fields, so the sequence-id
and string fields already hold the values from the stream (not the caller's
previous ones): the "no fields populated" guarantee is specific to the
array-descriptor failure. -/
theorem mismatch_overwrites_fields (expect m0 : Nat) (s0 : String) (d n : Nat)
    (t : String) (rest : List Tok) (h256 : d < 256) (hd : d ≠ expect)
    (hn : n ≠ m0) (ht : t ≠ s0) :
    parseCustomHeader expect m0 s0 (Tok.raw 0x94 :: Tok.val (Val.byte d) ::
        Tok.val (Val.u32 n) :: Tok.val (Val.str t) :: rest) =
      ⟨some (HErr.discErr expect d), n, t, rest⟩ ∧
    (parseCustomHeader expect m0 s0 (Tok.raw 0x94 :: Tok.val (Val.byte d) ::
        Tok.val (Val.u32 n) :: Tok.val (Val.str t) :: rest)).msgid ≠ m0 ∧
    (parseCustomHeader expect m0 s0 (Tok.raw 0x94 :: Tok.val (Val.byte d) ::
        Tok.val (Val.u32 n) :: Tok.val (Val.str t) :: rest)).moe ≠ s0 := by
  have h1 : parseCustomHeader expect m0 s0 (Tok.raw 0x94 :: Tok.val (Val.byte d) ::
      Tok.val (Val.u32 n) :: Tok.val (Val.str t) :: rest) =
      ⟨some (HErr.discErr expect d), n, t, rest⟩ := by
    simp [parseCustomHeader, readByte, asByteT, asU64T, asStrT, h256, hd]
  refine ⟨h1, ?_, ?_⟩ <;> rw [h1]
  · exact hn
  · exact ht

/-- C10 witness: a concrete mismatching header overwrites both caller
fields. -/
theorem mismatch_overwrites_fields_w :
    ((1 : Nat) < 256 ∧ (1 : Nat) ≠ 0 ∧ (9 : Nat) ≠ 5 ∧ "b" ≠ "a") ∧
    (parseCustomHeader 0 5 "a" [Tok.raw 0x94, Tok.val (Val.byte 1),
        Tok.val (Val.u32 9), Tok.val (Val.str "b")] =
      ⟨some (HErr.discErr 0 1), 9, "b", []⟩ ∧
     (parseCustomHeader 0 5 "a" [Tok.raw 0x94, Tok.val (Val.byte 1),
        Tok.val (Val.u32 9), Tok.val (Val.str "b")]).msgid ≠ 5 ∧
     (parseCustomHeader 0 5 "a" [Tok.raw 0x94, Tok.val (Val.byte 1),
        Tok.val (Val.u32 9), Tok.val (Val.str "b")]).moe ≠ "a") :=
  ⟨by decide,
   mismatch_overwrites_fields 0 5 "a" 1 9 "b" [] (by decide) (by decide)
     (by decide) (by decide)⟩

/-- C6: both the request and the response writer put the low 32 bits of the
64-bit sequence id in the wire envelope's sequence slot; the header reader
widens the wire value back into the 64-bit field, so any sequence id of at
least 2^32 reads back different from what was written. -/
theorem seq_width_asymmetry (q : Nat) (meth errS : String) (b : Option Val)
    (r0 : Request) (hq : 2 ^ 32 ≤ q) :
    seqSlot (writeCustomBodyVal 0 q meth b) = some (Val.u32 (q % 2 ^ 32)) ∧
    seqSlot (writeCustomBodyVal 1 q errS b) = some (Val.u32 (q % 2 ^ 32)) ∧
    (specReadRequestHeader r0 (specWriteRequest ⟨q, meth⟩ b [])).2.1.Seq = q % 2 ^ 32 ∧
    (specReadRequestHeader r0 (specWriteRequest ⟨q, meth⟩ b [])).2.1.Seq ≠ q := by
  have hmod : q % 2 ^ 32 ≠ q := by
    have : q % 2 ^ 32 < 2 ^ 32 := Nat.mod_lt _ (by positivity)
    omega
  have hread : (specReadRequestHeader r0 (specWriteRequest ⟨q, meth⟩ b [])).2.1.Seq
      = q % 2 ^ 32 := by
    simp [specWriteRequest, writeCustomBody, writeCustomBodyVal, encTop, encOpt,
      specReadRequestHeader, parseCustomHeader, readByte, asByteT, asU64T, asStrT]
  refine ⟨?_, ?_, hread, by rw [hread]; exact hmod⟩
  · simp [seqSlot, writeCustomBodyVal]
  · by_cases hE : errS = "" <;> cases b <;> simp [seqSlot, writeCustomBodyVal, hE]

/-- C6 witness: sequence id 2^32 is written as 0 on the wire and reads back
as 0, not 2^32. -/
theorem seq_width_asymmetry_w :
    2 ^ 32 ≤ 4294967296 ∧
    (seqSlot (writeCustomBodyVal 0 4294967296 "m" none) =
       some (Val.u32 (4294967296 % 2 ^ 32)) ∧
     seqSlot (writeCustomBodyVal 1 4294967296 "" none) =
       some (Val.u32 (4294967296 % 2 ^ 32)) ∧
     (specReadRequestHeader ⟨0, ""⟩
        (specWriteRequest ⟨4294967296, "m"⟩ none [])).2.1.Seq = 4294967296 % 2 ^ 32 ∧
     (specReadRequestHeader ⟨0, ""⟩
        (specWriteRequest ⟨4294967296, "m"⟩ none [])).2.1.Seq ≠ 4294967296) :=
  ⟨by norm_num, seq_width_asymmetry 4294967296 "m" "" none ⟨0, ""⟩ (by norm_num)⟩

theorem rpcWrite_all_ok {ε : Type} (fails : Val → Option ε) (vs t0 : List Val)
    (h : ∀ v ∈ vs, fails v = none) :
    rpcWrite (traceEncStep fails) vs t0 = (none, t0 ++ vs) := by
  induction vs generalizing t0 with
  | nil => simp [rpcWrite]
  | cons v vs ih =>
    have hv : fails v = none := h v (by simp)
    have hrest : ∀ u ∈ vs, fails u = none := fun u hu => h u (by simp [hu])
    simp [rpcWrite, traceEncStep, hv, ih t0 hrest, ih (t0 ++ [v]) hrest]

theorem rpcWrite_first_fail {ε : Type} (fails : Val → Option ε) (pre : List Val)
    (v : Val) (post : List Val) (t0 : List Val) (e : ε)
    (hpre : ∀ u ∈ pre, fails u = none) (hv : fails v = some e) :
    rpcWrite (traceEncStep fails) (pre ++ v :: post) t0 = (some e, t0 ++ pre ++ [v]) := by
  induction pre generalizing t0 with
  | nil => simp [rpcWrite, traceEncStep, hv]
  | cons u pre ih =>
    have hu : fails u = none := hpre u (by simp)
    have hrest : ∀ x ∈ pre, fails x = none := fun x hx => hpre x (by simp [hx])
    simp [rpcWrite, traceEncStep, hu, ih (t0 ++ [u]) hrest]

theorem rpcRead_all_ok {ε : Type} (fails : Tgt → Option ε) (ts t0 : List Tgt)
    (h : ∀ x ∈ ts, fails x = none) :
    rpcRead (traceDecStep fails) ts t0 = (none, t0 ++ ts) := by
  induction ts generalizing t0 with
  | nil => simp [rpcRead]
  | cons x ts ih =>
    have hx : fails x = none := h x (by simp)
    have hrest : ∀ u ∈ ts, fails u = none := fun u hu => h u (by simp [hu])
    simp [rpcRead, traceDecStep, hx, ih (t0 ++ [x]) hrest]

theorem rpcRead_first_fail {ε : Type} (fails : Tgt → Option ε) (pre : List Tgt)
    (x : Tgt) (post : List Tgt) (t0 : List Tgt) (e : ε)
    (hpre : ∀ u ∈ pre, fails u = none) (hx : fails x = some e) :
    rpcRead (traceDecStep fails) (pre ++ x :: post) t0 = (some e, t0 ++ pre ++ [x]) := by
  induction pre generalizing t0 with
  | nil => simp [rpcRead, traceDecStep, hx]
  | cons u pre ih =>
    have hu : fails u = none := hpre u (by simp)
    have hrest : ∀ y ∈ pre, fails y = none := fun y hy => hpre y (by simp [hy])
    simp [rpcRead, traceDecStep, hu, ih (t0 ++ [u]) hrest]

/-- C7: the stream core's `write` hands each value to the encoder in the given
order and succeeds when every encode succeeds; at the first encoder failure it
returns that error, having invoked the encoder exactly on the preceding
values and the failing one — none of the remaining values, and no retries
(the trace records every invocation).  `read` behaves symmetrically with the
decoder over its targets. -/
theorem rpc_first_failure {ε : Type} (failsW : Val → Option ε) (failsR : Tgt → Option ε) :
    (∀ vs t0 : List Val, (∀ v ∈ vs, failsW v = none) →
       rpcWrite (traceEncStep failsW) vs t0 = (none, t0 ++ vs)) ∧
    (∀ (pre : List Val) (v : Val) (post t0 : List Val) (e : ε),
       (∀ u ∈ pre, failsW u = none) → failsW v = some e →
       rpcWrite (traceEncStep failsW) (pre ++ v :: post) t0 = (some e, t0 ++ pre ++ [v])) ∧
    (∀ ts t0 : List Tgt, (∀ x ∈ ts, failsR x = none) →
       rpcRead (traceDecStep failsR) ts t0 = (none, t0 ++ ts)) ∧
    (∀ (pre : List Tgt) (x : Tgt) (post t0 : List Tgt) (e : ε),
       (∀ u ∈ pre, failsR u = none) → failsR x = some e →
       rpcRead (traceDecStep failsR) (pre ++ x :: post) t0 = (some e, t0 ++ pre ++ [x])) :=
  ⟨fun vs t0 h => rpcWrite_all_ok failsW vs t0 h,
   fun pre v post t0 e h1 h2 => rpcWrite_first_fail failsW pre v post t0 e h1 h2,
   fun ts t0 h => rpcRead_all_ok failsR ts t0 h,
   fun pre x post t0 e h1 h2 => rpcRead_first_fail failsR pre x post t0 e h1 h2⟩

/-- C7 witness: with an encoder that rejects nil and a decoder that rejects
string targets, a failing middle element stops the loop right there, and an
all-good list is processed in full. -/
theorem rpc_first_failure_w :
    rpcWrite (traceEncStep failsW0) [Val.byte 1, Val.nil, Val.byte 2] [] =
      (some 0, [Val.byte 1, Val.nil]) ∧
    rpcRead (traceDecStep failsR0) [Tgt.byteT, Tgt.strT, Tgt.u64T] [] =
      (some 1, [Tgt.byteT, Tgt.strT]) ∧
    rpcWrite (traceEncStep failsW0) [Val.byte 1, Val.byte 2] [] =
      (none, [Val.byte 1, Val.byte 2]) := by
  have H := rpc_first_failure failsW0 failsR0
  refine ⟨?_, ?_, ?_⟩
  · have h := H.2.1 [Val.byte 1] Val.nil [Val.byte 2] [] 0
      (by intro u hu; simp at hu; subst hu; rfl) rfl
    simpa using h
  · have h := H.2.2.2 [Tgt.byteT] Tgt.strT [Tgt.u64T] [] 1
      (by intro u hu; simp at hu; subst hu; rfl) rfl
    simpa using h
  · have h := H.1 [Val.byte 1, Val.byte 2] []
      (by intro u hu; simp at hu; rcases hu with h | h <;> subst h <;> rfl)
    simpa using h

/-- C9: the Basic protocol writes each message as exactly two consecutive
encoded values (the envelope struct then the body) with no framing bytes, and
each of its read operations decodes exactly one value from the stream into
its target, leaving the rest untouched. -/
theorem basic_protocol_two_values (r : Request) (p : Response) (b : Val)
    (s : List Tok) (q : Nat) (m e : String) (rest : List Tok) (v : Val)
    (r0 : Request) (p0 : Response) :
    goWriteRequest r b s = s ++ [Tok.val (Val.reqV r.Seq r.ServiceMethod)] ++ encTop b ∧
    goWriteResponse p b s = s ++ [Tok.val (Val.respV p.Seq p.Error)] ++ encTop b ∧
    goReadRequestHeader r0 (Tok.val (Val.reqV q m) :: rest) = (none, ⟨q, m⟩, rest) ∧
    goReadResponseHeader p0 (Tok.val (Val.respV q e) :: rest) = (none, ⟨q, e⟩, rest) ∧
    goReadRequestBody (Tok.val v :: rest) = some (v, rest) ∧
    rpcReadResponseBody (Tok.val v :: rest) = some (v, rest) := by
  refine ⟨?_, ?_, ?_, ?_, ?_, ?_⟩ <;>
    simp [goWriteRequest, goWriteResponse, rpcWrite, encStep, encTop,
      goReadRequestHeader, goReadResponseHeader, goReadRequestBody,
      rpcReadResponseBody, asReqT, asRespT]

end Msgpack
